import Mathlib

/-!
# Shallow embedding of ShinYwings/Alexnet_tf2

Verification of the repository's optimizer (`src/optimizer_alexnet.py`),
learning-rate schedule, augmentation worker and training-loop pipeline
(`src/main.py`).  Machine reals are modelled as exact rationals.
-/

namespace AlexnetTf2

/-! ## Optimizer (src/optimizer_alexnet.py, class SGD)

The constructor (`SGD.__init__`, lines 77-102) validates hyperparameters and
records the enable flags `_weight_decay` / `_momentum`.  For plain `float`
arguments (the only case this repository uses), `isinstance(x, ops.Tensor) or
callable(x)` is false, so the enable flags reduce to `x > 0`; both range
checks at lines 91 and 98 test the `momentum` argument.  A raised `ValueError`
is modelled as `Except.error` carrying the message string. -/

structure SGDConfig where
  learning_rate : ℚ
  weight_decay : ℚ
  momentum : ℚ
  nesterov : Bool
  weight_decay_enabled : Bool
  momentum_enabled : Bool
deriving Repr, DecidableEq

instance {ε α : Type} [DecidableEq ε] [DecidableEq α] :
    DecidableEq (Except ε α) := fun a b =>
  match a, b with
  | Except.ok x, Except.ok y =>
    if h : x = y then isTrue (by rw [h]) else isFalse (by simp [h])
  | Except.error x, Except.error y =>
    if h : x = y then isTrue (by rw [h]) else isFalse (by simp [h])
  | Except.ok _, Except.error _ => isFalse (by simp)
  | Except.error _, Except.ok _ => isFalse (by simp)

namespace SGD

/-- `SGD.__init__(learning_rate, weight_decay, momentum, nesterov)` for plain
float arguments.  The first range check (source line 91) tests `momentum` and
raises with a message naming `weight_decay`; the second (line 98) also tests
`momentum`.  `weight_decay` itself is never range-checked. -/
def init (learning_rate weight_decay momentum : ℚ) (nesterov : Bool) :
    Except String SGDConfig :=
  if momentum < 0 ∨ momentum > 1 then
    Except.error "`weight_decay` must be between [0, 1]."
  else if momentum < 0 ∨ momentum > 1 then
    Except.error "`momentum` must be between [0, 1]."
  else
    Except.ok
      { learning_rate := learning_rate
        weight_decay := weight_decay
        momentum := momentum
        nesterov := nesterov
        weight_decay_enabled := weight_decay > 0
        momentum_enabled := momentum > 0 }

end SGD

/-- One trainable parameter together with its optimizer-owned momentum slot
(`add_slot(var, "momentum")`, zero-initialized by the framework default). -/
structure ParamState where
  var : ℚ
  accum : ℚ
deriving Repr, DecidableEq

/-- `_create_slots` adds the `"momentum"` slot with the framework's default
zero initializer: on first use the velocity is 0. -/
def SGD.initial_slot (w : ℚ) : ParamState :=
  { var := w, accum := 0 }

/-- Modelled from the documented semantics of the external TensorFlow kernel
`training_ops.resource_apply_keras_momentum` (library code, not part of this
repository): `accum ← accum * momentum - grad * lr`; then
`var ← var + accum * momentum - grad * lr` if `use_nesterov` else
`var ← var + accum`. -/
def resource_apply_keras_momentum (lr grad momentum : ℚ) (use_nesterov : Bool)
    (s : ParamState) : ParamState :=
  let accum := s.accum * momentum - grad * lr
  if use_nesterov then
    { var := s.var + (accum * momentum - grad * lr), accum := accum }
  else
    { var := s.var + accum, accum := accum }

/-- Modelled from the documented semantics of the external TensorFlow kernel
`training_ops.resource_apply_gradient_descent`: `var ← var - lr * grad`. -/
def resource_apply_gradient_descent (lr grad : ℚ) (s : ParamState) : ParamState :=
  { s with var := s.var - lr * grad }

/-- The coefficients `_prepare_local` (lines 113-118) puts into `apply_state`:
`lr_t`, `momentum` and `weight_decay`. -/
structure Coefficients where
  lr_t : ℚ
  momentum : ℚ
  weight_decay : ℚ
deriving Repr, DecidableEq

def SGD.prepare_local (c : SGDConfig) : Coefficients :=
  { lr_t := c.learning_rate, momentum := c.momentum, weight_decay := c.weight_decay }

/-- `SGD._resource_apply_dense` (lines 120-137): with momentum enabled it calls
`resource_apply_keras_momentum(var, momentum_var, lr_t, grad, momentum,
use_nesterov=nesterov)`, otherwise plain gradient descent.  Note that the
`weight_decay` coefficient prepared by `_prepare_local` is not read anywhere
in this method. -/
def SGD.resource_apply_dense (c : SGDConfig) (grad : ℚ) (s : ParamState) : ParamState :=
  let coefficients := SGD.prepare_local c
  if c.momentum_enabled then
    resource_apply_keras_momentum coefficients.lr_t grad coefficients.momentum c.nesterov s
  else
    resource_apply_gradient_descent coefficients.lr_t grad s

/-- Stated from the spec's words, for comparison with `SGD.resource_apply_dense`:
the decay term folded into the effective update before the momentum step,
i.e. the update behaves as if `g' = g + weight_decay * w` replaced `g`. -/
def specFoldedDecayStep (c : SGDConfig) (grad : ℚ) (s : ParamState) : ParamState :=
  SGD.resource_apply_dense
    { c with weight_decay := 0, weight_decay_enabled := false }
    (grad + c.weight_decay * s.var) s

/-! ## Learning-rate schedule -/

/-- Modelled from the spec: `main.py` line 252 constructs
`optimizer_alexnet.AlexNetLRSchedule(initial_learning_rate, name)` and
`performance_lr_scheduling` (lines 306-308) calls its
`cnt_up_num_of_statinary_loss()`, but the class definition is not among the
source files (`src/optimizer_alexnet.py` defines only `SGD`).  Per the spec
§4.1: state is `(initial_rate, stagnation_count)` with `stagnation_count = 0`
initially; `current_rate()` returns `initial_rate` unless stagnation has been
signaled; `on_stagnation()` increments the counter and reduces the effective
rate.  The spec leaves the exact decay function open (§9); it is modelled here
as division by 10 per stagnation event, which satisfies the contract's
required strict decrease. -/
structure AlexNetLRSchedule where
  initial_learning_rate : ℚ
  num_of_stationary_loss : ℕ
deriving Repr, DecidableEq

namespace AlexNetLRSchedule

/-- Initial schedule state: `stagnation_count = 0`. -/
def mk0 (initial_rate : ℚ) : AlexNetLRSchedule :=
  { initial_learning_rate := initial_rate, num_of_stationary_loss := 0 }

/-- `current_rate()`: the effective learning rate after the signaled
stagnation events. -/
def current_rate (s : AlexNetLRSchedule) : ℚ :=
  s.initial_learning_rate / 10 ^ s.num_of_stationary_loss

/-- `cnt_up_num_of_statinary_loss()`: the stagnation signal. -/
def cnt_up_num_of_statinary_loss (s : AlexNetLRSchedule) : AlexNetLRSchedule :=
  { s with num_of_stationary_loss := s.num_of_stationary_loss + 1 }

end AlexNetLRSchedule

/-! ## Images and the augmentation worker (src/main.py)

An image tensor of shape `[H, W, 3]` is modelled as its two spatial extents
plus a total pixel function (only the region below the extents is relevant). -/

structure Img where
  H : ℕ
  W : ℕ
  pix : ℕ → ℕ → Fin 3 → ℚ

/-- `IMAGENET_MEAN` (src/main.py line 58), the fixed per-channel rgb mean. -/
def IMAGENET_MEAN : Fin 3 → ℚ :=
  ![122.10927936917298, 116.5416959998387, 102.61744377213829]

/-- The Python/tensor slice `image[r0:r1, c0:c1]` with the usual clamping
semantics (an omitted bound is written as `0` resp. `img.H`/`img.W`). -/
def Img.slice (img : Img) (r0 r1 c0 c1 : ℕ) : Img :=
  { H := min r1 img.H - r0
    W := min c1 img.W - c0
    pix := fun i j ch => img.pix (r0 + i) (c0 + j) ch }

/-- `tf.image.flip_left_right`: mirror along the width axis. -/
def flip_left_right (img : Img) : Img :=
  { img with pix := fun i j ch => img.pix i (img.W - 1 - j) ch }

/-- `tf.subtract(crop, IMAGENET_MEAN)`: per-channel mean subtraction
(broadcast over the channel axis). -/
def Img.subMean (img : Img) : Img :=
  { img with pix := fun i j ch => img.pix i j ch - IMAGENET_MEAN ch }

/-- The crop payload of `tf.image.random_crop(img, [227, 227, 3])` for a
given random draw `off`: a 227 by 227 window whose offset is the draw reduced
into the valid range. -/
def random_crop_at (img : Img) (off : ℕ × ℕ) : Img :=
  { H := 227
    W := 227
    pix := fun i j ch =>
      img.pix (off.1 % (img.H - 227 + 1) + i) (off.2 % (img.W - 227 + 1) + j) ch }

/-- Modelled from the documented semantics of the external TensorFlow op
`tf.image.random_crop(image, size=[227, 227, 3])` (library code, not part of
this repository): it raises unless the image is at least `227` along both
spatial axes, and otherwise returns a window at an offset drawn uniformly
from the valid range; the draw is supplied as the oracle `off`. -/
def random_crop (img : Img) (off : ℕ × ℕ) : Option Img :=
  if 227 ≤ img.H ∧ 227 ≤ img.W then some (random_crop_at img off) else none

/-- `tf.stack(list)`: raises (InvalidArgumentError) unless every element has
the same shape as the first. -/
def stackImgs (l : List Img) : Option (List Img) :=
  match l with
  | [] => some []
  | x :: xs =>
    if xs.all fun y => y.H == x.H && y.W == x.W then some (x :: xs) else none

/-- `image_cropping(image, training)` (src/main.py lines 84-136).  Training
branch: a random 227-crop of the image and one of its horizontal mirror, each
mean-subtracted (the two random draws are supplied as the oracle `offs`).
Evaluation branch: the ten fixed slices exactly as written in the source —
note the variables named `topright` and `bottomleft` slice `[29:, :227]` and
`[:227, 29:]` respectively.  A raised error is modelled as `none`. -/
def image_cropping (image : Img) (training : Bool) (offs : (ℕ × ℕ) × (ℕ × ℕ)) :
    Option (List Img) :=
  if training then do
    let horizental_fliped_image := flip_left_right image
    let ran_crop_image1 ← random_crop image offs.1
    let ran_crop_image2 ← random_crop horizental_fliped_image offs.2
    stackImgs [ran_crop_image1.subMean, ran_crop_image2.subMean]
  else
    let horizental_fliped_image := flip_left_right image
    let topleft := image.slice 0 227 0 227
    let topright := image.slice 29 image.H 0 227
    let bottomleft := image.slice 0 227 29 image.W
    let bottomright := image.slice 29 image.H 29 image.W
    let center := image.slice 15 242 15 242
    let hf_topleft := horizental_fliped_image.slice 0 227 0 227
    let hf_topright := horizental_fliped_image.slice 29 image.H 0 227
    let hf_bottomleft := horizental_fliped_image.slice 0 227 29 image.W
    let hf_bottomright := horizental_fliped_image.slice 29 image.H 29 image.W
    let hf_center := horizental_fliped_image.slice 15 242 15 242
    stackImgs
      [topleft.subMean, topright.subMean, bottomleft.subMean,
       bottomright.subMean, center.subMean, hf_topleft.subMean,
       hf_topright.subMean, hf_bottomleft.subMean, hf_bottomright.subMean,
       hf_center.subMean]

/-- The loop body of `img_preprocessing` (src/main.py lines 74-80): `i` runs
over the label indices, `images[i]` is cropped, and every crop is appended
together with a copy of `labels[i]`.  Exhausting the images before the labels
is the source's `IndexError`, modelled as `none`. -/
def img_preprocessing_go (train : Bool) (offs : ℕ → (ℕ × ℕ) × (ℕ × ℕ)) :
    ℕ → List Img → List ℤ → Option (List Img × List ℤ)
  | _, _, [] => some ([], [])
  | _, [], _ :: _ => none
  | i, image :: images, label :: labels => do
    let cropped_intend_image ← image_cropping image train (offs i)
    let rest ← img_preprocessing_go train offs (i + 1) images labels
    some (cropped_intend_image ++ rest.1,
          cropped_intend_image.map (fun _ => label) ++ rest.2)

/-- `img_preprocessing(q, images, labels, train)` (src/main.py lines 70-82):
the pair the worker appends to the queue, or `none` if the worker raised. -/
def img_preprocessing (images : List Img) (labels : List ℤ) (train : Bool)
    (offs : ℕ → (ℕ × ℕ) × (ℕ × ℕ)) : Option (List Img × List ℤ) :=
  img_preprocessing_go train offs 0 images labels

/-- The fixed 227-crop of an image at row offset `r` and column offset `c`
(used to describe the evaluation-mode variants). -/
def fixedCrop (img : Img) (r c : ℕ) : Img :=
  img.slice r (r + 227) c (c + 227)

/-- Stated from the spec's words for comparison: the claimed top-right
evaluation crop — the top 227 rows and the rightmost 227 columns, i.e. row
offset 0 and column offset `W - 227` — mean-subtracted. -/
def specTopRightVariant (img : Img) : Img :=
  (img.slice 0 227 (img.W - 227) img.W).subMean

/-- Stated from the spec's words for comparison: the claimed center crop with
offset equal to half of `dimension - crop size` (floor), i.e. offset 14 for a
256-pixel dimension — mean-subtracted. -/
def specCenterFloorVariant (img : Img) : Img :=
  (img.slice 14 241 14 241).subMean

/-- A concrete 256 by 256 probe image whose pixel at row `i`, column `j` is
`1000 * i + j`, so every pixel identifies its source position. -/
def evalProbeImage : Img :=
  { H := 256, W := 256, pix := fun i j _ => (i : ℚ) * 1000 + (j : ℚ) }

/-! ## Double-buffer pipeline (src/main.py training-epoch loop, lines 328-366)

The epoch body is abstracted to its synchronization events: `start` a worker
thread, the worker's `append` into the single-slot queue, `join`, `pop` the
slot, and `train` on the popped augmented batch. -/

inductive PipeEvent
  | start
  | append
  | join
  | pop
  | train
deriving Repr, DecidableEq

/-- The event trace of one training epoch over `K` raw batches: iteration 0
primes synchronously (start the worker on the first raw batch, it appends,
join); every later iteration pops the slot, starts the worker on the new raw
batch, trains on the popped batch while the worker runs, and joins; after the
loop one final pop-and-train drains the slot.  The worker's append happens at
some point between its start and its join; it is placed right after the
start, the earliest (worst) case for the slot-occupancy bound. -/
def epochPrefix (K : ℕ) : List PipeEvent :=
  (List.range K).flatMap fun i =>
    if i = 0 then [PipeEvent.start, PipeEvent.append, PipeEvent.join]
    else [PipeEvent.pop, PipeEvent.start, PipeEvent.train,
          PipeEvent.append, PipeEvent.join]

def epochTrace (K : ℕ) : List PipeEvent :=
  epochPrefix K ++ [PipeEvent.pop, PipeEvent.train]

/-- Pipeline occupancy: how many augmented batches sit unconsumed in the
slot, and how many worker tasks are in flight. -/
structure PipeState where
  slot : ℕ
  inFlight : ℕ
deriving Repr, DecidableEq

/-- Guarded interpreter for the pipeline invariants: a worker may start only
when none is in flight, a worker may append only into an empty slot, a pop
only takes from a full slot; any violation (including e.g. a second
in-flight task or an overwritten slot) aborts to `none`. -/
def pipeStep : Option PipeState → PipeEvent → Option PipeState
  | none, _ => none
  | some s, PipeEvent.start =>
    if s.inFlight = 0 then some { s with inFlight := 1 } else none
  | some s, PipeEvent.append =>
    if s.inFlight = 1 ∧ s.slot = 0 then some { s with slot := 1 } else none
  | some s, PipeEvent.join =>
    if s.inFlight = 1 then some { s with inFlight := 0 } else none
  | some s, PipeEvent.pop =>
    if s.slot = 1 then some { s with slot := 0 } else none
  | some s, PipeEvent.train => some s

/-- Run the guarded interpreter from the empty initial state. -/
def runPipe (l : List PipeEvent) : Option PipeState :=
  l.foldl pipeStep (some { slot := 0, inFlight := 0 })

/-! ## Stagnation check (src/main.py lines 268 and 417-419) -/

/-- The end-of-epoch stagnation check iterated over the per-epoch test
accuracies: with the running `prev_test_accuracy` (initially `-1.`, line
268), each epoch fires `performance_lr_scheduling()` iff
`prev_test_accuracy >= test_accuracy.result()` and then overwrites
`prev_test_accuracy` with this epoch's accuracy (lines 417-419).  Returns
one flag per epoch: whether the stagnation signal fired after that epoch's
evaluation phase. -/
def stagnationFlags (prev : ℚ) : List ℚ → List Bool
  | [] => []
  | a :: rest => decide (prev ≥ a) :: stagnationFlags a rest

/-! ## Batch construction and the sub-batch re-split (src/main.py) -/

/-- `dataset.batch(B, drop_remainder=True)` — the re-split of a popped
augmented batch into fixed-size sub-batches (src/main.py lines 344, 362, 388
and 404): consecutive chunks of exactly `B`, the final partial chunk
discarded. -/
def batchDropRemainder (B : ℕ) (l : List α) : List (List α) :=
  if h : B = 0 ∨ l.length < B then []
  else l.take B :: batchDropRemainder B (l.drop B)
termination_by l.length
decreasing_by
  push_neg at h
  simp only [List.length_drop]
  omega

/-- `dataset.batch(B, drop_remainder=False)` — the raw-batch construction
(src/main.py lines 213-214): consecutive chunks of `B`, the final shorter
chunk kept. -/
def batchKeepRemainder (B : ℕ) (l : List α) : List (List α) :=
  if h : B = 0 ∨ l.length = 0 then []
  else l.take B :: batchKeepRemainder B (l.drop B)
termination_by l.length
decreasing_by
  push_neg at h
  simp only [List.length_drop]
  omega

/-! ## Theorems -/

/-- C1 (code bug): `SGD.__init__` with `weight_decay = 1/2 > 0` marks weight
decay enabled, yet `_resource_apply_dense` never reads the `weight_decay`
coefficient: at `w = 1`, `g = 0`, `lr = 1/10`, `momentum = 9/10` the applied
update leaves the parameter unchanged, coincides with the update of the
optimizer constructed with `weight_decay = 0`, and differs from the spec's
folded-decay update `g' = g + weight_decay * w`. -/
theorem c1_weight_decay_never_applied :
    SGD.init (1/10) (1/2) (9/10) false = Except.ok
      { learning_rate := 1/10, weight_decay := 1/2, momentum := 9/10,
        nesterov := false, weight_decay_enabled := true, momentum_enabled := true } ∧
    SGD.resource_apply_dense
      { learning_rate := 1/10, weight_decay := 1/2, momentum := 9/10,
        nesterov := false, weight_decay_enabled := true, momentum_enabled := true }
      0 { var := 1, accum := 0 } = { var := 1, accum := 0 } ∧
    SGD.resource_apply_dense
      { learning_rate := 1/10, weight_decay := 1/2, momentum := 9/10,
        nesterov := false, weight_decay_enabled := true, momentum_enabled := true }
      0 { var := 1, accum := 0 }
      = SGD.resource_apply_dense
        { learning_rate := 1/10, weight_decay := 0, momentum := 9/10,
          nesterov := false, weight_decay_enabled := false, momentum_enabled := true }
        0 { var := 1, accum := 0 } ∧
    specFoldedDecayStep
      { learning_rate := 1/10, weight_decay := 1/2, momentum := 9/10,
        nesterov := false, weight_decay_enabled := true, momentum_enabled := true }
      0 { var := 1, accum := 0 } ≠ { var := 1, accum := 0 } := by
  refine ⟨?_, ?_, ?_, ?_⟩
  · norm_num [SGD.init]
  · norm_num [SGD.resource_apply_dense, SGD.prepare_local,
      resource_apply_keras_momentum]
  · norm_num [SGD.resource_apply_dense, SGD.prepare_local,
      resource_apply_keras_momentum]
  · norm_num [specFoldedDecayStep, SGD.resource_apply_dense, SGD.prepare_local,
      resource_apply_keras_momentum, ParamState.mk.injEq]

/-- C2 (code bug): both range checks in `SGD.__init__` test `momentum`
(source lines 91 and 98), so construction with `weight_decay = 2 ∉ [0,1]`
succeeds, while momentum outside `[0,1]` is rejected (with the copy-pasted
message naming `weight_decay`); in general construction fails iff the
momentum argument is outside `[0,1]`. -/
theorem c2_only_momentum_is_range_checked :
    SGD.init (1/100) 2 (1/2) false = Except.ok
      { learning_rate := 1/100, weight_decay := 2, momentum := 1/2,
        nesterov := false, weight_decay_enabled := true, momentum_enabled := true } ∧
    SGD.init (1/100) (1/2) 2 false
      = Except.error "`weight_decay` must be between [0, 1]." ∧
    SGD.init (1/100) (1/2) (-1) false
      = Except.error "`weight_decay` must be between [0, 1]." ∧
    (∀ lr wd m : ℚ, ∀ n : Bool,
      (∃ e, SGD.init lr wd m n = Except.error e) ↔ (m < 0 ∨ m > 1)) := by
  refine ⟨by norm_num [SGD.init], by norm_num [SGD.init],
    by norm_num [SGD.init], ?_⟩
  intro lr wd m n
  constructor
  · rintro ⟨e, he⟩
    by_contra hm
    simp only [SGD.init, if_neg hm] at he
    exact Except.noConfusion he
  · intro hm
    exact ⟨"`weight_decay` must be between [0, 1].",
      by simp only [SGD.init, if_pos hm]⟩

/-- Witness for C2's quantified part at `momentum = 2`. -/
theorem c2_only_momentum_is_range_checked_witness :
    (∃ e, SGD.init 1 5 2 false = Except.error e) ↔ ((2:ℚ) < 0 ∨ (2:ℚ) > 1) :=
  c2_only_momentum_is_range_checked.2.2.2 1 5 2 false

/-- C3 (confirmed): with momentum enabled and nesterov off, the dense update
sets `v ← momentum * v - learning_rate * g` and `w ← w + v`; the momentum
slot is zero-initialized; with `lr = 1/10`, `momentum = 9/10`, `g = 2`,
`weight_decay = 0`: after one step `v = -1/5` and the parameter has decreased
by `1/5`, after a second identical step `v = -19/50` and the cumulative
decrease is `29/50`. -/
theorem c3_momentum_update_rule :
    SGD.init (1/10) 0 (9/10) false = Except.ok
      { learning_rate := 1/10, weight_decay := 0, momentum := 9/10,
        nesterov := false, weight_decay_enabled := false, momentum_enabled := true } ∧
    (∀ lr m w v g : ℚ,
      SGD.resource_apply_dense
        { learning_rate := lr, weight_decay := 0, momentum := m,
          nesterov := false, weight_decay_enabled := false, momentum_enabled := true }
        g { var := w, accum := v }
      = { var := w + (m * v - lr * g), accum := m * v - lr * g }) ∧
    (∀ w : ℚ,
      SGD.resource_apply_dense
        { learning_rate := 1/10, weight_decay := 0, momentum := 9/10,
          nesterov := false, weight_decay_enabled := false, momentum_enabled := true }
        2 (SGD.initial_slot w) = { var := w - 1/5, accum := -(1/5) } ∧
      SGD.resource_apply_dense
        { learning_rate := 1/10, weight_decay := 0, momentum := 9/10,
          nesterov := false, weight_decay_enabled := false, momentum_enabled := true }
        2 { var := w - 1/5, accum := -(1/5) }
        = { var := w - 29/50, accum := -(19/50) }) := by
  refine ⟨by norm_num [SGD.init], ?_, ?_⟩
  · intro lr m w v g
    simp only [SGD.resource_apply_dense, SGD.prepare_local,
      resource_apply_keras_momentum, if_pos, Bool.false_eq_true, if_false,
      ParamState.mk.injEq]
    constructor <;> ring
  · intro w
    constructor <;>
      · simp only [SGD.resource_apply_dense, SGD.prepare_local, SGD.initial_slot,
          resource_apply_keras_momentum, if_pos, Bool.false_eq_true, if_false,
          ParamState.mk.injEq]
        constructor <;> ring_nf

/-- C7 (spec-modelled, confirmed): `current_rate()` returns the initial rate
while no stagnation has been signaled; one `cnt_up_num_of_statinary_loss()`
call increments the stagnation counter and, for a positive initial rate,
strictly decreases the effective rate relative to zero calls. -/
theorem c7_lr_schedule_contract (r : ℚ) :
    (AlexNetLRSchedule.mk0 r).current_rate = r ∧
    ((AlexNetLRSchedule.mk0 r).cnt_up_num_of_statinary_loss).num_of_stationary_loss
      = (AlexNetLRSchedule.mk0 r).num_of_stationary_loss + 1 ∧
    (0 < r →
      ((AlexNetLRSchedule.mk0 r).cnt_up_num_of_statinary_loss).current_rate
        < (AlexNetLRSchedule.mk0 r).current_rate) := by
  refine ⟨?_, rfl, ?_⟩
  · simp [AlexNetLRSchedule.mk0, AlexNetLRSchedule.current_rate]
  · intro hr
    simp only [AlexNetLRSchedule.mk0, AlexNetLRSchedule.current_rate,
      AlexNetLRSchedule.cnt_up_num_of_statinary_loss, pow_zero, pow_one, div_one]
    exact div_lt_self hr (by norm_num)

/-- Witness for C7 at the repository's `LEARNING_RATE = 0.02`. -/
theorem c7_lr_schedule_contract_witness :
    (0:ℚ) < 1/50 ∧
    ((AlexNetLRSchedule.mk0 (1/50)).cnt_up_num_of_statinary_loss).current_rate
      < (AlexNetLRSchedule.mk0 (1/50)).current_rate :=
  ⟨by norm_num, (c7_lr_schedule_contract (1/50)).2.2 (by norm_num)⟩

theorem stagnationFlags_eq_zipWith (a : ℚ) (rest : List ℚ) :
    stagnationFlags a rest
      = List.zipWith (fun p c => decide (p ≥ c)) (a :: rest) rest := by
  induction rest generalizing a with
  | nil => rfl
  | cons b bs ih => simp only [stagnationFlags, List.zipWith, ih b]

/-- C9 (confirmed): with `prev_test_accuracy` initialized to `-1`, the
stagnation signal produces one flag per epoch, the first epoch's flag is
`false` (for any achievable accuracy `≥ 0`), and every later epoch's flag is
exactly `previous accuracy ≥ current accuracy` (a tie counts as
stagnation). -/
theorem c9_stagnation_check (a : ℚ) (rest : List ℚ) (ha : 0 ≤ a) :
    stagnationFlags (-1) (a :: rest)
      = false :: List.zipWith (fun p c => decide (p ≥ c)) (a :: rest) rest ∧
    (stagnationFlags (-1) (a :: rest)).length = (a :: rest).length := by
  have h1 : stagnationFlags (-1) (a :: rest)
      = decide ((-1 : ℚ) ≥ a) :: stagnationFlags a rest := rfl
  have h2 : decide ((-1 : ℚ) ≥ a) = false := by
    simp only [decide_eq_false_iff_not]
    intro hge
    linarith
  refine ⟨?_, ?_⟩
  · rw [h1, h2, stagnationFlags_eq_zipWith]
  · rw [h1, h2, stagnationFlags_eq_zipWith]
    simp

/-- Witness for C9 on the accuracy sequence `[3/4, 3/4, 1/2]` (an exact tie
then a drop). -/
theorem c9_stagnation_check_witness :
    (0:ℚ) ≤ 3/4 ∧
    stagnationFlags (-1) [3/4, 3/4, 1/2]
      = false :: List.zipWith (fun p c => decide (p ≥ c))
          [(3:ℚ)/4, 3/4, 1/2] [3/4, 1/2] :=
  ⟨by norm_num, (c9_stagnation_check (3/4) [3/4, 1/2] (by norm_num)).1⟩

theorem batchDropRemainder_length {α : Type} (B : ℕ) (hB : 0 < B)
    (l : List α) : (batchDropRemainder B l).length = l.length / B := by
  induction l using batchDropRemainder.induct B with
  | case1 l h =>
    rcases h with h | h
    · omega
    · rw [batchDropRemainder, dif_pos (Or.inr h), List.length_nil,
        Nat.div_eq_of_lt h]
  | case2 l h ih =>
    push_neg at h
    rw [batchDropRemainder, dif_neg (by push_neg; exact h), List.length_cons, ih,
      List.length_drop, Nat.div_eq_sub_div hB h.2]

theorem batchDropRemainder_flatten_length {α : Type} (B : ℕ) (hB : 0 < B)
    (l : List α) :
    (batchDropRemainder B l).flatten.length = B * (l.length / B) := by
  induction l using batchDropRemainder.induct B with
  | case1 l h =>
    rcases h with h | h
    · omega
    · rw [batchDropRemainder, dif_pos (Or.inr h), Nat.div_eq_of_lt h]
      simp
  | case2 l h ih =>
    push_neg at h
    rw [batchDropRemainder, dif_neg (by push_neg; exact h), List.flatten_cons,
      List.length_append, ih, List.length_take, List.length_drop,
      Nat.div_eq_sub_div hB h.2]
    have : min B l.length = B := by omega
    rw [this]
    ring

theorem batchKeepRemainder_flatten {α : Type} (B : ℕ) (hB : 0 < B)
    (l : List α) : (batchKeepRemainder B l).flatten = l := by
  induction l using batchKeepRemainder.induct B with
  | case1 l h =>
    rcases h with h | h
    · omega
    · rw [batchKeepRemainder, dif_pos (Or.inr h)]
      simp [List.length_eq_zero.mp h]
  | case2 l h ih =>
    push_neg at h
    rw [batchKeepRemainder, dif_neg (by push_neg; exact h), List.flatten_cons,
      ih, List.take_append_drop]

/-- C10 (confirmed): the sub-batch re-split into chunks of 128 with
`drop_remainder=True` feeds exactly `floor(size/128) * 128` samples in
`floor(size/128)` train/eval steps; the raw-batch construction
(`drop_remainder=False`) discards nothing; hence a raw batch of `n < 64`
training images, whose augmented expansion has `2*n < 128` samples, yields
zero sub-batches — it is discarded in full. -/
theorem c10_resplit_drops_remainder {α : Type} (l : List α) (n : ℕ)
    (hn : n < 64) :
    (batchDropRemainder 128 l).flatten.length = 128 * (l.length / 128) ∧
    (batchDropRemainder 128 l).length = l.length / 128 ∧
    (batchKeepRemainder 128 l).flatten = l ∧
    (∀ l2 : List α, l2.length = 2 * n →
      batchDropRemainder 128 l2 = [] ∧ (batchDropRemainder 128 l2).flatten = []) := by
  refine ⟨batchDropRemainder_flatten_length 128 (by norm_num) l,
    batchDropRemainder_length 128 (by norm_num) l,
    batchKeepRemainder_flatten 128 (by norm_num) l, ?_⟩
  intro l2 hl2
  have hempty : batchDropRemainder 128 l2 = [] := by
    rw [batchDropRemainder, dif_pos (Or.inr (by omega))]
  exact ⟨hempty, by rw [hempty]; rfl⟩

/-- Witness for C10 with 63 images expanding to 126 augmented samples. -/
theorem c10_resplit_drops_remainder_witness :
    (63 < 64 ∧ (List.range 126).length = 2 * 63) ∧
    batchDropRemainder 128 (List.range 126) = [] ∧
    (batchDropRemainder 128 (List.range 126)).flatten = [] :=
  ⟨⟨by norm_num, by simp⟩,
    (c10_resplit_drops_remainder (List.range 126) 63 (by norm_num)).2.2.2
      (List.range 126) (by simp)⟩

theorem epochPrefix_succ (K : ℕ) (hK : 1 ≤ K) :
    epochPrefix (K + 1) = epochPrefix K
      ++ [PipeEvent.pop, PipeEvent.start, PipeEvent.train,
          PipeEvent.append, PipeEvent.join] := by
  unfold epochPrefix
  rw [List.range_succ, List.flatMap_append]
  simp [show K ≠ 0 by omega]

theorem foldl_pipeStep_none (l : List PipeEvent) :
    l.foldl pipeStep none = none := by
  induction l with
  | nil => rfl
  | cons e es ih => rw [List.foldl_cons]; exact ih

theorem runPipe_epochPrefix (K : ℕ) (hK : 1 ≤ K) :
    (epochPrefix K).foldl pipeStep (some { slot := 0, inFlight := 0 })
      = some { slot := 1, inFlight := 0 } ∧
    (epochPrefix K).count PipeEvent.append = K ∧
    (epochPrefix K).count PipeEvent.start = K ∧
    (epochPrefix K).count PipeEvent.pop = K - 1 := by
  induction K, hK using Nat.le_induction with
  | base => exact ⟨by decide, by decide, by decide, by decide⟩
  | succ K hK ih =>
    obtain ⟨h1, h2, h3, h4⟩ := ih
    rw [epochPrefix_succ K hK]
    refine ⟨?_, ?_, ?_, ?_⟩
    · rw [List.foldl_append, h1]; rfl
    · rw [List.count_append, h2]
      have : [PipeEvent.pop, PipeEvent.start, PipeEvent.train,
          PipeEvent.append, PipeEvent.join].count PipeEvent.append = 1 := by decide
      omega
    · rw [List.count_append, h3]
      have : [PipeEvent.pop, PipeEvent.start, PipeEvent.train,
          PipeEvent.append, PipeEvent.join].count PipeEvent.start = 1 := by decide
      omega
    · rw [List.count_append, h4]
      have : [PipeEvent.pop, PipeEvent.start, PipeEvent.train,
          PipeEvent.append, PipeEvent.join].count PipeEvent.pop = 1 := by decide
      omega

/-- C4 (confirmed): over an epoch with `K ≥ 1` raw batches, the guarded
pipeline interpreter accepts the whole epoch trace and ends with an empty
slot and no task in flight — so a worker only ever starts when none is in
flight (at most one augmentation task in flight), a worker only posts into
an empty slot (the slot never holds more than one unconsumed batch, and
every augmented batch was popped exactly once before the slot is refilled),
and a pop only takes from a full slot; the worker runs (`append`/`start`)
exactly `K` times and the slot is popped exactly `K` times (the `K`-th being
the final drain pop); every prefix of the trace is also accepted. -/
theorem c4_pipeline_invariants (K : ℕ) (hK : 1 ≤ K) :
    runPipe (epochTrace K) = some { slot := 0, inFlight := 0 } ∧
    (epochTrace K).count PipeEvent.append = K ∧
    (epochTrace K).count PipeEvent.start = K ∧
    (epochTrace K).count PipeEvent.pop = K ∧
    (∀ p q : List PipeEvent, epochTrace K = p ++ q →
      (runPipe p).isSome = true) := by
  obtain ⟨h1, h2, h3, h4⟩ := runPipe_epochPrefix K hK
  have htrace : runPipe (epochTrace K) = some { slot := 0, inFlight := 0 } := by
    unfold epochTrace runPipe
    rw [List.foldl_append, h1]
    rfl
  refine ⟨htrace, ?_, ?_, ?_, ?_⟩
  · unfold epochTrace
    rw [List.count_append, h2]
    have : [PipeEvent.pop, PipeEvent.train].count PipeEvent.append = 0 := by decide
    omega
  · unfold epochTrace
    rw [List.count_append, h3]
    have : [PipeEvent.pop, PipeEvent.train].count PipeEvent.start = 0 := by decide
    omega
  · unfold epochTrace
    rw [List.count_append, h4]
    have : [PipeEvent.pop, PipeEvent.train].count PipeEvent.pop = 1 := by decide
    omega
  · intro p q hpq
    cases hrp : runPipe p with
    | some s => rfl
    | none =>
      exfalso
      have hcontr : runPipe (epochTrace K) = none := by
        rw [hpq]
        unfold runPipe at hrp ⊢
        rw [List.foldl_append, hrp]
        exact foldl_pipeStep_none q
      rw [htrace] at hcontr
      exact Option.noConfusion hcontr

/-- Witness for C4 at an epoch of three raw batches. -/
theorem c4_pipeline_invariants_witness :
    1 ≤ 3 ∧
    runPipe (epochTrace 3) = some { slot := 0, inFlight := 0 } ∧
    (epochTrace 3).count PipeEvent.append = 3 ∧
    (epochTrace 3).count PipeEvent.pop = 3 :=
  ⟨by norm_num, (c4_pipeline_invariants 3 (by norm_num)).1,
    (c4_pipeline_invariants 3 (by norm_num)).2.1,
    (c4_pipeline_invariants 3 (by norm_num)).2.2.2.1⟩

theorem image_cropping_train_none (img : Img) (offs : (ℕ × ℕ) × (ℕ × ℕ))
    (hsmall : img.H < 227 ∨ img.W < 227) :
    image_cropping img true offs = none := by
  have hc : ¬(227 ≤ img.H ∧ 227 ≤ img.W) := by omega
  simp [image_cropping, random_crop, hc]

theorem image_cropping_eval_none (img : Img) (offs : (ℕ × ℕ) × (ℕ × ℕ))
    (hH : 0 < img.H) (hW : 0 < img.W) (hsmall : img.H < 227 ∨ img.W < 227) :
    image_cropping img false offs = none := by
  unfold image_cropping stackImgs
  simp only [Bool.false_eq_true, if_false]
  split
  · next h =>
    exfalso
    simp only [List.all_cons, List.all_nil, Bool.and_eq_true, beq_iff_eq,
      Img.subMean, Img.slice, flip_left_right] at h
    omega
  · rfl

theorem img_preprocessing_go_none (train : Bool)
    (offs : ℕ → (ℕ × ℕ) × (ℕ × ℕ)) (img : Img)
    (hfail : ∀ o, image_cropping img train o = none) :
    ∀ (i : ℕ) (imgs : List Img) (labels : List ℤ),
      imgs.length = labels.length → img ∈ imgs →
      img_preprocessing_go train offs i imgs labels = none := by
  intro i imgs
  induction imgs generalizing i with
  | nil =>
    intro labels _ hmem
    cases hmem
  | cons x xs ih =>
    intro labels hlen hmem
    cases labels with
    | nil => simp at hlen
    | cons l ls =>
      rcases List.mem_cons.mp hmem with hx | hx
      · subst hx
        simp [img_preprocessing_go, hfail]
      · have hlen' : xs.length = ls.length := by simpa using hlen
        cases hc : image_cropping x train (offs i) with
        | none => simp [img_preprocessing_go, hc]
        | some c => simp [img_preprocessing_go, hc, ih (i + 1) ls hlen' hx]

/-- C8 amended (corrected): every input image with positive height and width
that is smaller than the crop size 227 along either spatial axis makes the
augmentation worker fail for that batch, in both training mode (the random
crop rejects it) and evaluation mode (stacking the unequal-shaped slices
rejects it); a degenerate zero-height or zero-width image is still rejected
in training mode but is silently accepted in evaluation mode (see the
counterexample). -/
theorem c8_small_image_rejected (img : Img)
    (hH : 0 < img.H) (hW : 0 < img.W) (hsmall : img.H < 227 ∨ img.W < 227) :
    (∀ offs, image_cropping img true offs = none) ∧
    (∀ offs, image_cropping img false offs = none) ∧
    (∀ (train : Bool) (offs : ℕ → (ℕ × ℕ) × (ℕ × ℕ)) (imgs : List Img)
       (labels : List ℤ), imgs.length = labels.length → img ∈ imgs →
      img_preprocessing imgs labels train offs = none) := by
  have htr : ∀ o, image_cropping img true o = none := fun o =>
    image_cropping_train_none img o hsmall
  have hev : ∀ o, image_cropping img false o = none := fun o =>
    image_cropping_eval_none img o hH hW hsmall
  refine ⟨htr, hev, ?_⟩
  intro train offs imgs labels hlen hmem
  have hfail : ∀ o, image_cropping img train o = none := by
    cases train
    · exact hev
    · exact htr
  exact img_preprocessing_go_none train offs img hfail 0 imgs labels hlen hmem

/-- Witness for C8 on a 100 by 300 image. -/
theorem c8_small_image_rejected_witness :
    ((0 < 100 ∧ 0 < 300) ∧ (100 < 227 ∨ 300 < 227)) ∧
    image_cropping { H := 100, W := 300, pix := fun _ _ _ => 0 } true
      ((0, 0), (0, 0)) = none ∧
    image_cropping { H := 100, W := 300, pix := fun _ _ _ => 0 } false
      ((0, 0), (0, 0)) = none :=
  ⟨⟨⟨by norm_num, by norm_num⟩, Or.inl (by norm_num)⟩,
    (c8_small_image_rejected { H := 100, W := 300, pix := fun _ _ _ => 0 }
      (by norm_num) (by norm_num) (Or.inl (by norm_num))).1 ((0, 0), (0, 0)),
    (c8_small_image_rejected { H := 100, W := 300, pix := fun _ _ _ => 0 }
      (by norm_num) (by norm_num) (Or.inl (by norm_num))).2.1 ((0, 0), (0, 0))⟩

/-- C8 counterexample: a degenerate image of height 0 — smaller than the
crop size along the height axis — is NOT rejected in evaluation mode: every
slice is empty with width 227, all ten shapes agree, and the worker silently
returns ten empty crops instead of failing. -/
theorem c8_counterexample_zero_height :
    ({ H := 0, W := 256, pix := fun _ _ _ => 0 } : Img).H < 227 ∧
    (image_cropping { H := 0, W := 256, pix := fun _ _ _ => 0 } false
      ((0, 0), (0, 0))).isSome = true := by
  exact ⟨by norm_num, by rfl⟩

theorem image_cropping_train_some (img : Img) (offs : (ℕ × ℕ) × (ℕ × ℕ))
    (hH : 227 ≤ img.H) (hW : 227 ≤ img.W) :
    image_cropping img true offs
      = some [(random_crop_at img offs.1).subMean,
              (random_crop_at (flip_left_right img) offs.2).subMean] := by
  have hflip : 227 ≤ (flip_left_right img).H ∧ 227 ≤ (flip_left_right img).W :=
    ⟨hH, hW⟩
  simp [image_cropping, random_crop, hH, hW, hflip, stackImgs, Img.subMean,
    random_crop_at]

theorem img_preprocessing_go_some (train : Bool)
    (offs : ℕ → (ℕ × ℕ) × (ℕ × ℕ)) (k : ℕ) (P : Img → Prop)
    (crops : ℕ → Img → List Img)
    (hcrop : ∀ i img, P img →
      image_cropping img train (offs i) = some (crops i img) ∧
      (crops i img).length = k) :
    ∀ (i : ℕ) (imgs : List Img) (labels : List ℤ),
      imgs.length = labels.length → (∀ img ∈ imgs, P img) →
      (img_preprocessing_go train offs i imgs labels).map Prod.snd
          = some (labels.flatMap fun l => List.replicate k l) ∧
      (img_preprocessing_go train offs i imgs labels).map (fun out => out.1.length)
          = some (k * labels.length) := by
  intro i imgs
  induction imgs generalizing i with
  | nil =>
    intro labels hlen _
    cases labels with
    | nil => simp [img_preprocessing_go]
    | cons l ls => simp at hlen
  | cons x xs ih =>
    intro labels hlen hP
    cases labels with
    | nil => simp at hlen
    | cons l ls =>
      have hx := hcrop i x (hP x (by simp))
      have hlen' : xs.length = ls.length := by simpa using hlen
      have hP' : ∀ img ∈ xs, P img := fun img hm => hP img (by simp [hm])
      obtain ⟨ih1, ih2⟩ := ih (i + 1) ls hlen' hP'
      cases hrest : img_preprocessing_go train offs (i + 1) xs ls with
      | none =>
        rw [hrest] at ih1
        simp at ih1
      | some rest =>
        rw [hrest] at ih1 ih2
        simp only [Option.map_some'] at ih1 ih2
        replace ih1 : rest.2 = ls.flatMap fun a => List.replicate k a :=
          Option.some.inj ih1
        replace ih2 : rest.1.length = k * ls.length := Option.some.inj ih2
        have hgo : img_preprocessing_go train offs i (x :: xs) (l :: ls)
            = some (crops i x ++ rest.1,
                (crops i x).map (fun _ => l) ++ rest.2) := by
          simp [img_preprocessing_go, hx.1, hrest]
        rw [hgo]
        constructor
        · simp only [Option.map_some', List.flatMap_cons]
          rw [List.map_const', hx.2, ih1]
        · simp only [Option.map_some', List.length_append, hx.2, ih2,
            List.length_cons]
          ring

theorem flatMap_replicate_getElem (k : ℕ) (l : List ℤ) (i j : ℕ)
    (hi : i < l.length) (hj : j < k) :
    (l.flatMap fun x => List.replicate k x)[k * i + j]? = l[i]? := by
  induction l generalizing i with
  | nil => simp at hi
  | cons x xs ih =>
    cases i with
    | zero =>
      rw [List.flatMap_cons, Nat.mul_zero, Nat.zero_add,
        List.getElem?_append_left (by simpa using hj)]
      simp [hj]
    | succ n =>
      have hge : (List.replicate k x).length ≤ k * (n + 1) + j := by
        simp only [List.length_replicate, Nat.mul_succ]
        generalize k * n = m
        omega
      rw [List.flatMap_cons, List.getElem?_append_right hge]
      have hsub : k * (n + 1) + j - (List.replicate k x).length = k * n + j := by
        simp only [List.length_replicate, Nat.mul_succ]
        generalize k * n = m
        omega
      rw [hsub, ih n (by simpa using hi)]
      simp

/-- C6 (confirmed): in training mode the worker yields, per image, exactly
the random crop of the original and the same-size random crop of the
horizontal mirror, each with the fixed per-channel mean vector subtracted;
for a batch of `N` images (of sufficient size) with `N` labels, the output
holds exactly `2N` images and `2N` labels, with
`labels[2i] = labels[2i+1] = input_labels[i]`. -/
theorem c6_training_augmentation (imgs : List Img) (labels : List ℤ)
    (offs : ℕ → (ℕ × ℕ) × (ℕ × ℕ))
    (hlen : imgs.length = labels.length)
    (hbig : ∀ img ∈ imgs, 227 ≤ img.H ∧ 227 ≤ img.W) :
    (∀ (img : Img) (o : (ℕ × ℕ) × (ℕ × ℕ)), 227 ≤ img.H → 227 ≤ img.W →
      image_cropping img true o
        = some [(random_crop_at img o.1).subMean,
                (random_crop_at (flip_left_right img) o.2).subMean]) ∧
    (img_preprocessing imgs labels true offs).map Prod.snd
      = some (labels.flatMap fun l => List.replicate 2 l) ∧
    (img_preprocessing imgs labels true offs).map (fun out => out.1.length)
      = some (2 * labels.length) ∧
    (∀ i : ℕ, i < labels.length →
      (labels.flatMap fun l => List.replicate 2 l)[2 * i]? = labels[i]? ∧
      (labels.flatMap fun l => List.replicate 2 l)[2 * i + 1]? = labels[i]?) := by
  have hspec := img_preprocessing_go_some true offs 2
    (fun img => 227 ≤ img.H ∧ 227 ≤ img.W)
    (fun o img => [(random_crop_at img (offs o).1).subMean,
                   (random_crop_at (flip_left_right img) (offs o).2).subMean])
    (fun o img hP => ⟨image_cropping_train_some img (offs o) hP.1 hP.2, rfl⟩)
    0 imgs labels hlen hbig
  refine ⟨fun img o h1 h2 => image_cropping_train_some img o h1 h2,
    hspec.1, hspec.2, ?_⟩
  intro i hi
  constructor
  · have := flatMap_replicate_getElem 2 labels i 0 hi (by norm_num)
    simpa using this
  · exact flatMap_replicate_getElem 2 labels i 1 hi (by norm_num)

/-- Witness for C6 on a one-image batch with a 256 by 256 image. -/
theorem c6_training_augmentation_witness :
    (([evalProbeImage].length = [(7 : ℤ)].length) ∧
      (227 ≤ evalProbeImage.H ∧ 227 ≤ evalProbeImage.W)) ∧
    (img_preprocessing [evalProbeImage] [(7 : ℤ)] true
        (fun _ => ((3, 5), (11, 13)))).map Prod.snd
      = some ([(7 : ℤ)].flatMap fun l => List.replicate 2 l) ∧
    (img_preprocessing [evalProbeImage] [(7 : ℤ)] true
        (fun _ => ((3, 5), (11, 13)))).map (fun out => out.1.length)
      = some (2 * [(7 : ℤ)].length) :=
  ⟨⟨rfl, by constructor <;> norm_num [evalProbeImage]⟩,
    (c6_training_augmentation [evalProbeImage] [(7 : ℤ)]
      (fun _ => ((3, 5), (11, 13))) rfl
      (by intro img hm; simp only [List.mem_singleton] at hm; subst hm
          constructor <;> norm_num [evalProbeImage])).2.1,
    (c6_training_augmentation [evalProbeImage] [(7 : ℤ)]
      (fun _ => ((3, 5), (11, 13))) rfl
      (by intro img hm; simp only [List.mem_singleton] at hm; subst hm
          constructor <;> norm_num [evalProbeImage])).2.2.1⟩

theorem image_cropping_eval_some (img : Img) (offs : (ℕ × ℕ) × (ℕ × ℕ))
    (hH : img.H = 256) (hW : img.W = 256) :
    image_cropping img false offs = some
      [(fixedCrop img 0 0).subMean, (fixedCrop img 29 0).subMean,
       (fixedCrop img 0 29).subMean, (fixedCrop img 29 29).subMean,
       (fixedCrop img 15 15).subMean,
       (fixedCrop (flip_left_right img) 0 0).subMean,
       (fixedCrop (flip_left_right img) 29 0).subMean,
       (fixedCrop (flip_left_right img) 0 29).subMean,
       (fixedCrop (flip_left_right img) 29 29).subMean,
       (fixedCrop (flip_left_right img) 15 15).subMean] := by
  rcases img with ⟨H, W, pix⟩
  have h1 : H = 256 := hH
  have h2 : W = 256 := hW
  subst h1
  subst h2
  norm_num [image_cropping, fixedCrop, Img.slice, Img.subMean,
    flip_left_right, stackImgs]

/-- C5 amended (corrected): in evaluation mode the worker yields, per 256 by
256 image, exactly 10 variants — the 227-crops at row/column offsets (0,0),
(29,0), (0,29), (29,29) and (15,15) of the original image followed by the
same five crops of its horizontal mirror, each mean-subtracted.  Relative to
the claim, the second and third variants are spatially the bottom-left and
top-right crops respectively (the code's `topright`/`bottomleft` slices are
transposed), and the center offset is 15, half of 29 = 256 - 227 rounded up.
For a batch of `N` such images the output has exactly `10N` images and `10N`
labels grouped in blocks of 10 per source image. -/
theorem c5_eval_augmentation (imgs : List Img) (labels : List ℤ)
    (offs : ℕ → (ℕ × ℕ) × (ℕ × ℕ))
    (hlen : imgs.length = labels.length)
    (hsz : ∀ img ∈ imgs, img.H = 256 ∧ img.W = 256) :
    (∀ (img : Img) (o : (ℕ × ℕ) × (ℕ × ℕ)), img.H = 256 → img.W = 256 →
      image_cropping img false o = some
        [(fixedCrop img 0 0).subMean, (fixedCrop img 29 0).subMean,
         (fixedCrop img 0 29).subMean, (fixedCrop img 29 29).subMean,
         (fixedCrop img 15 15).subMean,
         (fixedCrop (flip_left_right img) 0 0).subMean,
         (fixedCrop (flip_left_right img) 29 0).subMean,
         (fixedCrop (flip_left_right img) 0 29).subMean,
         (fixedCrop (flip_left_right img) 29 29).subMean,
         (fixedCrop (flip_left_right img) 15 15).subMean]) ∧
    (img_preprocessing imgs labels false offs).map Prod.snd
      = some (labels.flatMap fun l => List.replicate 10 l) ∧
    (img_preprocessing imgs labels false offs).map (fun out => out.1.length)
      = some (10 * labels.length) ∧
    (∀ i j : ℕ, i < labels.length → j < 10 →
      (labels.flatMap fun l => List.replicate 10 l)[10 * i + j]? = labels[i]?) := by
  have hspec := img_preprocessing_go_some false offs 10
    (fun img => img.H = 256 ∧ img.W = 256)
    (fun o img =>
      [(fixedCrop img 0 0).subMean, (fixedCrop img 29 0).subMean,
       (fixedCrop img 0 29).subMean, (fixedCrop img 29 29).subMean,
       (fixedCrop img 15 15).subMean,
       (fixedCrop (flip_left_right img) 0 0).subMean,
       (fixedCrop (flip_left_right img) 29 0).subMean,
       (fixedCrop (flip_left_right img) 0 29).subMean,
       (fixedCrop (flip_left_right img) 29 29).subMean,
       (fixedCrop (flip_left_right img) 15 15).subMean])
    (fun o img hP => ⟨image_cropping_eval_some img (offs o) hP.1 hP.2, rfl⟩)
    0 imgs labels hlen hsz
  exact ⟨fun img o h1 h2 => image_cropping_eval_some img o h1 h2,
    hspec.1, hspec.2,
    fun i j hi hj => flatMap_replicate_getElem 10 labels i j hi hj⟩

/-- Witness for C5 on a one-image batch with the 256 by 256 probe image. -/
theorem c5_eval_augmentation_witness :
    (([evalProbeImage].length = [(3 : ℤ)].length) ∧
      (evalProbeImage.H = 256 ∧ evalProbeImage.W = 256)) ∧
    (img_preprocessing [evalProbeImage] [(3 : ℤ)] false
        (fun _ => ((0, 0), (0, 0)))).map Prod.snd
      = some ([(3 : ℤ)].flatMap fun l => List.replicate 10 l) ∧
    (img_preprocessing [evalProbeImage] [(3 : ℤ)] false
        (fun _ => ((0, 0), (0, 0)))).map (fun out => out.1.length)
      = some (10 * [(3 : ℤ)].length) :=
  ⟨⟨rfl, by constructor <;> norm_num [evalProbeImage]⟩,
    (c5_eval_augmentation [evalProbeImage] [(3 : ℤ)]
      (fun _ => ((0, 0), (0, 0))) rfl
      (by intro img hm; simp only [List.mem_singleton] at hm; subst hm
          constructor <;> norm_num [evalProbeImage])).2.1,
    (c5_eval_augmentation [evalProbeImage] [(3 : ℤ)]
      (fun _ => ((0, 0), (0, 0))) rfl
      (by intro img hm; simp only [List.mem_singleton] at hm; subst hm
          constructor <;> norm_num [evalProbeImage])).2.2.1⟩

/-- C5 counterexample: on the probe image (pixel at row `i`, column `j` is
`1000*i + j`), the second variant the code produces reads its (0,0) pixel
from source row 29, column 0 — it is the bottom-left crop, not the claimed
top-right crop whose (0,0) pixel comes from row 0, column 29 — and the fifth
(center) variant reads from (15,15), not (14,14) as the floor reading of
"half of 29" would give. -/
theorem c5_counterexample_order_and_center :
    ((image_cropping evalProbeImage false ((0, 0), (0, 0))).map fun l =>
        (l[1]?).map fun v => v.pix 0 0 0)
      = some (some ((29 : ℚ) * 1000 + 0 - IMAGENET_MEAN 0)) ∧
    (specTopRightVariant evalProbeImage).pix 0 0 0
      = (0 : ℚ) * 1000 + 29 - IMAGENET_MEAN 0 ∧
    (29 : ℚ) * 1000 + 0 - IMAGENET_MEAN 0
      ≠ (0 : ℚ) * 1000 + 29 - IMAGENET_MEAN 0 ∧
    ((image_cropping evalProbeImage false ((0, 0), (0, 0))).map fun l =>
        (l[4]?).map fun v => v.pix 0 0 0)
      = some (some ((15 : ℚ) * 1000 + 15 - IMAGENET_MEAN 0)) ∧
    (specCenterFloorVariant evalProbeImage).pix 0 0 0
      = (14 : ℚ) * 1000 + 14 - IMAGENET_MEAN 0 ∧
    (15 : ℚ) * 1000 + 15 - IMAGENET_MEAN 0
      ≠ (14 : ℚ) * 1000 + 14 - IMAGENET_MEAN 0 := by
  refine ⟨?_, ?_, by norm_num, ?_, ?_, by norm_num⟩
  · norm_num [image_cropping, Img.slice, Img.subMean, flip_left_right,
      stackImgs, evalProbeImage]
  · norm_num [specTopRightVariant, Img.slice, Img.subMean, evalProbeImage]
  · norm_num [image_cropping, Img.slice, Img.subMean, flip_left_right,
      stackImgs, evalProbeImage]
  · norm_num [specCenterFloorVariant, Img.slice, Img.subMean, evalProbeImage]

end AlexnetTf2
